import Mathlib

/-!
# Verification of the lynkr long-term memory core

A shallow embedding of `src/memory/store.js`, `src/memory/surprise.js`,
`src/memory/retriever.js` and the memory tool adapter (`tools.js`), with
theorems settling the specification claims about them.

Modelling conventions:
* SQLite rows become a Lean structure `MemoryRow`; nullable columns are
  `Option`-typed, mirroring the `??` defaults applied in `toMemory`.
* The memories table is a list of rows plus the next rowid; `Date.now()`
  becomes an explicit `now : Int` (milliseconds) parameter.
* JS numbers are modelled as `ℚ` (exact rationals); the retriever score,
  which uses `Math.exp`, is modelled over `ℝ`.
* Throwing functions return `Except String _`.
* `JSON.stringify`/`JSON.parse` of a metadata map is modelled as storing the
  map itself (`serialize = some`, `parseJSON = getD`), i.e. the JSON
  round-trip is assumed faithful for plain key/value maps.
-/

namespace Lynkr

/-- Opaque key→value metadata mapping (a plain JSON object). -/
abbrev Metadata := List (String × String)

/-- A row of the `memories` table, column for column.  Nullable columns are
`Option`-typed; `metadata` holds the (de)serialized JSON text. -/
structure MemoryRow where
  id : Nat
  session_id : Option String
  content : String
  type : String
  category : Option String
  importance : Option ℚ
  surprise_score : Option ℚ
  access_count : Option Nat
  decay_factor : Option ℚ
  source_turn_id : Option String
  created_at : Int
  updated_at : Int
  last_accessed_at : Option Int
  metadata : Option Metadata
  deriving Repr, DecidableEq

/-- The JS `Memory` object shape produced by `toMemory` and `createMemory`. -/
structure Memory where
  id : Nat
  sessionId : Option String
  content : String
  type : String
  category : Option String
  importance : ℚ
  surpriseScore : ℚ
  accessCount : Nat
  decayFactor : ℚ
  sourceTurnId : Option String
  createdAt : Int
  updatedAt : Int
  lastAccessedAt : Option Int
  metadata : Metadata
  deriving Repr, DecidableEq

/-- The persistent state of the memory store: the `memories` table plus the
next rowid that `INSERT` will assign (`lastInsertRowid`). -/
structure MemoryStore where
  rows : List MemoryRow
  nextId : Nat
  deriving Repr, DecidableEq

/-- `serialize(value)` — JSON-stringify; the JSON text is modelled by the
map itself. -/
def serialize (value : Metadata) : Option Metadata := some value

/-- `parseJSON(value, fallback)` — JSON-parse with fallback. -/
def parseJSON (value : Option Metadata) (fallback : Metadata) : Metadata :=
  value.getD fallback

/-- `toMemory(row)` from `store.js`: map a non-null row to the JS object,
applying the `??` defaults column by column. -/
def toMemory (row : MemoryRow) : Memory where
  id := row.id
  sessionId := row.session_id
  content := row.content
  type := row.type
  category := row.category
  importance := row.importance.getD (1/2)
  surpriseScore := row.surprise_score.getD 0
  accessCount := row.access_count.getD 0
  decayFactor := row.decay_factor.getD 1
  sourceTurnId := row.source_turn_id
  createdAt := row.created_at
  updatedAt := row.updated_at
  lastAccessedAt := row.last_accessed_at
  metadata := parseJSON row.metadata []

/-- The options bag accepted by `createMemory`.  `none` models an absent
(`undefined`) property, which triggers the destructuring default. -/
structure CreateMemoryOptions where
  sessionId : Option String := none
  content : String
  type : String
  category : Option String := none
  importance : Option ℚ := none
  surpriseScore : Option ℚ := none
  accessCount : Option Nat := none
  decayFactor : Option ℚ := none
  sourceTurnId : Option String := none
  metadata : Option Metadata := none
  deriving Repr, DecidableEq

/-- `createMemory(options)` from `store.js`: validates that content and type
are non-empty (JS truthiness on strings), applies the destructuring
defaults, INSERTs the row with `created_at = updated_at = now`, and returns
the constructed memory object together with the new store state. -/
def createMemory (st : MemoryStore) (now : Int) (options : CreateMemoryOptions) :
    Except String (Memory × MemoryStore) :=
  let importance := options.importance.getD (1/2)
  let surpriseScore := options.surpriseScore.getD 0
  let accessCount := options.accessCount.getD 0
  let decayFactor := options.decayFactor.getD 1
  let metadata := options.metadata.getD []
  if options.content = "" ∨ options.type = "" then
    .error "Memory content and type are required"
  else
    let row : MemoryRow :=
      { id := st.nextId
        session_id := options.sessionId
        content := options.content
        type := options.type
        category := options.category
        importance := some importance
        surprise_score := some surpriseScore
        access_count := some accessCount
        decay_factor := some decayFactor
        source_turn_id := options.sourceTurnId
        created_at := now
        updated_at := now
        last_accessed_at := none
        metadata := serialize metadata }
    let mem : Memory :=
      { id := st.nextId
        sessionId := options.sessionId
        content := options.content
        type := options.type
        category := options.category
        importance := importance
        surpriseScore := surpriseScore
        accessCount := accessCount
        decayFactor := decayFactor
        sourceTurnId := options.sourceTurnId
        createdAt := now
        updatedAt := now
        lastAccessedAt := none
        metadata := metadata }
    .ok (mem, { rows := st.rows ++ [row], nextId := st.nextId + 1 })

/-- `SELECT ... FROM memories WHERE id = ?` — first row with the id. -/
def getMemoryRow (st : MemoryStore) (id : Nat) : Option MemoryRow :=
  st.rows.find? (fun r => r.id == id)

/-- `getMemory(id)` from `store.js`: row lookup mapped through `toMemory`;
`none` models the JS `null` for a missing id. -/
def getMemory (st : MemoryStore) (id : Nat) : Option Memory :=
  (getMemoryRow st id).map toMemory

/-- A store state is well formed when row ids are distinct and `nextId` is
fresh — exactly what the SQLite INTEGER PRIMARY KEY autoincrement provides. -/
def FreshId (st : MemoryStore) : Prop :=
  ∀ r ∈ st.rows, r.id ≠ st.nextId

instance (st : MemoryStore) : Decidable (FreshId st) := by
  unfold FreshId; infer_instance

/-- The update surface of `updateMemory(id, updates)`.  `none` models an
absent or `null` property, either of which makes the `??` fallback keep the
prior value. -/
structure UpdateMemoryOptions where
  content : Option String := none
  type : Option String := none
  category : Option String := none
  importance : Option ℚ := none
  surpriseScore : Option ℚ := none
  decayFactor : Option ℚ := none
  metadata : Option Metadata := none
  deriving Repr, DecidableEq

/-- The UPDATE statement of `updateMemory`: sets content, type, category,
importance, surprise_score, decay_factor, updated_at and metadata on the row
with the given id, leaving every other column untouched. -/
def applyUpdate (memory : Memory) (updates : UpdateMemoryOptions) (now : Int)
    (r : MemoryRow) : MemoryRow :=
  { r with
    content := updates.content.getD memory.content
    type := updates.type.getD memory.type
    category := (updates.category).orElse (fun _ => memory.category)
    importance := some (updates.importance.getD memory.importance)
    surprise_score := some (updates.surpriseScore.getD memory.surpriseScore)
    decay_factor := some (updates.decayFactor.getD memory.decayFactor)
    updated_at := now
    metadata := serialize (updates.metadata.getD memory.metadata) }

/-- `updateMemory(id, updates)` from `store.js`: throws when the id is
absent, otherwise merges the update into the existing record (each `??`
fallback keeps the prior value), bumps `updated_at`, and returns
`getMemory(id)` over the new state. -/
def updateMemory (st : MemoryStore) (now : Int) (id : Nat)
    (updates : UpdateMemoryOptions) :
    Except String (Option Memory × MemoryStore) :=
  match getMemory st id with
  | none => .error ("Memory with ID " ++ toString id ++ " not found")
  | some memory =>
    let st' : MemoryStore :=
      { st with
        rows := st.rows.map (fun r =>
          if r.id == id then applyUpdate memory updates now r else r) }
    .ok (getMemory st' id, st')

/-- `ORDER BY created_at DESC` as a relation on rows. -/
def createdDesc (a b : MemoryRow) : Prop := b.created_at ≤ a.created_at

instance : DecidableRel createdDesc := fun a b =>
  inferInstanceAs (Decidable (b.created_at ≤ a.created_at))

instance : IsTotal MemoryRow createdDesc :=
  ⟨fun a b => le_total b.created_at a.created_at⟩

instance : IsTrans MemoryRow createdDesc :=
  ⟨fun _ _ _ h₁ h₂ => le_trans h₂ h₁⟩

/-- SQLite three-valued comparison on a nullable numeric column: NULL sorts
below every number, so `DESC` puts NULLs last. -/
def sqlLt (x y : Option ℚ) : Prop :=
  match x, y with
  | none, none => False
  | none, some _ => True
  | some _, none => False
  | some a, some b => a < b

instance : DecidableRel sqlLt := fun x y => by
  unfold sqlLt
  match x, y with
  | none, none => exact inferInstanceAs (Decidable False)
  | none, some _ => exact inferInstanceAs (Decidable True)
  | some _, none => exact inferInstanceAs (Decidable False)
  | some a, some b => exact inferInstanceAs (Decidable (a < b))

/-- `ORDER BY importance DESC, created_at DESC` as a relation on rows. -/
def importanceCreatedDesc (a b : MemoryRow) : Prop :=
  sqlLt b.importance a.importance ∨
    (a.importance = b.importance ∧ b.created_at ≤ a.created_at)

instance : DecidableRel importanceCreatedDesc := fun a b => by
  unfold importanceCreatedDesc; infer_instance

/-- Options bag for `getRecentMemories`. -/
structure RecentMemoriesOptions where
  limit : Nat := 10
  sessionId : Option String := none
  deriving Repr, DecidableEq

/-- The `WHERE (session_id = ? OR ? IS NULL)` filter: a `none` parameter
matches every row, a `some s` parameter matches exactly the rows whose
(possibly NULL) session equals `s`. -/
def sessionFilter (sessionId : Option String) (r : MemoryRow) : Bool :=
  match sessionId with
  | none => true
  | some s => r.session_id == some s

/-- `getRecentMemories({limit, sessionId})` from `store.js`:
session filter, `ORDER BY created_at DESC`, `LIMIT ?`, rows mapped through
`toMemory`. -/
def getRecentMemories (st : MemoryStore) (options : RecentMemoriesOptions) :
    List Memory :=
  ((((st.rows.filter (sessionFilter options.sessionId)).insertionSort
      createdDesc).take options.limit).map toMemory)

/-- Options bag for `countMemories`.  The JS function signature is
`countMemories()` — it declares no parameter, so a caller-supplied options
bag is ignored entirely. -/
structure CountMemoriesOptions where
  sessionId : Option String := none
  deriving Repr, DecidableEq

/-- `countMemories()` from `store.js`: `SELECT COUNT(*) FROM memories`,
with no session filter of any kind. -/
def countMemories (st : MemoryStore) (_options : CountMemoriesOptions := {}) :
    Nat :=
  st.rows.length

/-- Modelled from the spec: `countMemories({sessionId})` → integer count,
optionally filtered — the behaviour the claim attributes to the code,
counting only rows of the given session when one is supplied. -/
def countMemoriesSpec (st : MemoryStore) (options : CountMemoriesOptions) :
    Nat :=
  match options.sessionId with
  | none => st.rows.length
  | some s => (st.rows.filter (fun r => r.session_id == some s)).length

/-- `pruneOldMemories(olderThanMs)` from `store.js`:
`DELETE FROM memories WHERE created_at < now - olderThanMs`; returns the
number of deleted rows (`result.changes`) with the new state. -/
def pruneOldMemories (st : MemoryStore) (now : Int) (olderThanMs : Int) :
    Nat × MemoryStore :=
  let threshold := now - olderThanMs
  let remaining := st.rows.filter (fun r => !(r.created_at < threshold : Bool))
  (st.rows.length - remaining.length, { st with rows := remaining })

/-- `pruneByCount(maxCount)` from `store.js`: delete every row whose id is
not among the top `maxCount` by importance desc, created_at desc; returns
the number of deleted rows with the new state. -/
def pruneByCount (st : MemoryStore) (maxCount : Nat) : Nat × MemoryStore :=
  let keptIds :=
    (((st.rows.insertionSort importanceCreatedDesc).take maxCount).map
      (fun r => r.id))
  let remaining := st.rows.filter (fun r => keptIds.contains r.id)
  (st.rows.length - remaining.length, { st with rows := remaining })

/-! ## Surprise engine (`surprise.js`, final revision)

The heuristics work on JS strings through regular expressions.  The
embedding models text as `List Char` and each regular expression by a
dedicated scanner with the same matching semantics on the repository's
alphabet (the JS classes `\w`, `\s`, `[a-z]`, … are ASCII-only, as are the
contents the heuristics target).  The original pattern is quoted next to
each scanner. -/

/-- JS `\w`: ASCII letter, digit or underscore. -/
def isWordChar (c : Char) : Bool := c.isAlphanum || c == '_'

/-- ASCII lowering, as `String.prototype.toLowerCase` acts on the ASCII
range. -/
def toLowerL (l : List Char) : List Char := l.map Char.toLower

/-- State machine behind `wsSplit`: `acc` is the field under construction
(reversed), `inSep` records being inside a whitespace run. -/
def wsSplitGo : List Char → List Char → Bool → List (List Char)
  | [], acc, inSep => if inSep then [[]] else [acc.reverse]
  | c :: cs, acc, inSep =>
    if inSep then
      if c.isWhitespace then wsSplitGo cs [] true
      else wsSplitGo cs [c] false
    else
      if c.isWhitespace then acc.reverse :: wsSplitGo cs [] true
      else wsSplitGo cs (c :: acc) false

/-- JS `text.split(/\s+/)`: fields between whitespace runs, with an empty
leading (resp. trailing) field when the text starts (resp. ends) with
whitespace, and `[""]` on empty input. -/
def wsSplit (l : List Char) : List (List Char) := wsSplitGo l [] false

/-- State machine behind `wordRuns`: `acc` is the word-character run under
construction (reversed). -/
def wordRunsGo : List Char → List Char → List (List Char)
  | [], acc => if acc.isEmpty then [] else [acc.reverse]
  | c :: cs, acc =>
    if isWordChar c then wordRunsGo cs (c :: acc)
    else if acc.isEmpty then wordRunsGo cs []
    else acc.reverse :: wordRunsGo cs []

/-- The maximal runs of `\w` characters of a text — the positions where a
`\b…\b`-delimited pattern can match. -/
def wordRuns (l : List Char) : List (List Char) := wordRunsGo l []

/-- A word-boundary alternative match at the current position: the previous
character (if any) is a non-word character, `alt` is a prefix of the rest,
and the character following it (if any) is a non-word character.  All
alternatives used start and end with a word character, so `\b` reduces to
exactly these two conditions. -/
def wordAltAt (prev : Option Char) (l : List Char) (alt : List Char) : Bool :=
  (match prev with | none => true | some p => !isWordChar p) &&
  alt.isPrefixOf l &&
  (match l.drop alt.length with | [] => true | c :: _ => !isWordChar c)

/-- `/\b(alt₁|alt₂|…)\b/.test(text)`: some alternative occurs somewhere in
the text with word boundaries on both sides. -/
def testWordAlts (alts : List (List Char)) : Option Char → List Char → Bool
  | prev, c :: cs =>
    alts.any (fun alt => wordAltAt prev (c :: cs) alt) ||
      testWordAlts alts (some c) cs
  | _, [] => false

/-- `hay.includes(needle)` — plain substring containment. -/
def includesSub (hay needle : List Char) : Bool := decide (needle <:+: hay)

/-- The apostrophe character (code point 39). -/
def apos : Char := Char.ofNat 39

/-- Helper for spelling contractions. -/
def contraction (a b : String) : List Char := a.toList ++ [apos] ++ b.toList

/-- `/\b(not|no|never|don't|doesn't|didn't|isn't|aren't|wasn't|weren't)\b/`,
the negation test applied to the new memory. -/
def negationWords : List (List Char) :=
  ["not".toList, "no".toList, "never".toList,
   contraction "don" "t", contraction "doesn" "t", contraction "didn" "t",
   contraction "isn" "t", contraction "aren" "t", contraction "wasn" "t",
   contraction "weren" "t"]

/-- `/\b(not|no|never|don't|doesn't)\b/`, the shorter negation test applied
to each existing memory. -/
def negationWordsShort : List (List Char) :=
  ["not".toList, "no".toList, "never".toList,
   contraction "don" "t", contraction "doesn" "t"]

/-- `/\b(prefers?|likes?|favou?rs?|chooses?)\b/`, expanded into its finitely
many alternatives. -/
def preferenceWords : List (List Char) :=
  ["prefer".toList, "prefers".toList, "like".toList, "likes".toList,
   "favor".toList, "favors".toList, "favour".toList, "favours".toList,
   "choose".toList, "chooses".toList]

/-- The antonym-pair table of `detectContradiction`. -/
def oppositeTerms : List (List Char × List Char) :=
  [("dark".toList, "light".toList),
   ("enable".toList, "disable".toList),
   ("on".toList, "off".toList),
   ("yes".toList, "no".toList),
   ("true".toList, "false".toList),
   ("allow".toList, "deny".toList),
   ("always".toList, "never".toList),
   ("more".toList, "less".toList),
   ("increase".toList, "decrease".toList),
   ("start".toList, "stop".toList)]

/-- The corrective-phrase patterns: `instead of`, `rather than`, `\bover\b`,
`actually`, `correction`, `changed? (?:from|to)`, `replaced`, `no longer`,
all case-insensitive, tested against the (lowered) new content. -/
def hasContradictoryPhraseB (content : List Char) : Bool :=
  let lower := toLowerL content
  includesSub lower "instead of".toList ||
  includesSub lower "rather than".toList ||
  testWordAlts ["over".toList] none lower ||
  includesSub lower "actually".toList ||
  includesSub lower "correction".toList ||
  includesSub lower "change from".toList ||
  includesSub lower "change to".toList ||
  includesSub lower "changed from".toList ||
  includesSub lower "changed to".toList ||
  includesSub lower "replaced".toList ||
  includesSub lower "no longer".toList

/-- The stop-word list of `extractKeywords` in `surprise.js`. -/
def surpriseStopwords : List String :=
  ["the", "is", "at", "which", "on", "and", "or", "not", "this", "that",
   "with", "from", "for", "to", "in", "of", "a", "an", "are", "was", "were",
   "be", "been", "being", "have", "has", "had", "do", "does", "did", "will",
   "would", "should", "could", "may", "might", "must", "can", "it", "its"]

/-- `extractKeywords(text)` from `surprise.js`: lowercase, split on
whitespace, strip non-word characters from each token
(`word.replace(/[^\w]/g, '')`), keep tokens longer than 3 characters that
are not stop words. -/
def extractKeywords (text : String) : List String :=
  (((wsSplit (toLowerL text.toList)).map
      (fun w => w.filter isWordChar)).filter
    (fun w => decide (3 < w.length) &&
      !(surpriseStopwords.contains (String.mk w)))).map String.mk

/-- `/\b[A-Z][a-z]+\b/g`: the maximal word runs consisting of one capital
followed by one or more lowercase letters.  (A boundary-delimited match can
only start and end at the boundaries of a maximal word run.) -/
def isCapLower (w : List Char) : Bool :=
  match w with
  | c :: cs => c.isUpper && !cs.isEmpty && cs.all Char.isLower
  | [] => false

/-- `/\b[a-z_][a-z0-9_]*\b/gi`: any maximal word run starting with a letter
or an underscore. -/
def isCodeId (w : List Char) : Bool :=
  match w with
  | c :: _ => c.isAlpha || c == '_'
  | [] => false

/-- `/[a-z0-9_-]+\.[a-z]{2,4}/gi`: file-name-like matches.  Fuel-driven
left-to-right scan; a match consumes a run of name characters, a dot, and
two to four letters (greedy). -/
def isFileChar (c : Char) : Bool := c.isAlphanum || c == '_' || c == '-'

def fileNamesGo (fuel : Nat) (l : List Char) : List (List Char) :=
  match fuel, l with
  | 0, _ => []
  | _, [] => []
  | fuel + 1, c :: cs =>
    if isFileChar c then
      let run := c :: cs.takeWhile isFileChar
      let rest := cs.dropWhile isFileChar
      match rest with
      | '.' :: r₁ =>
        let letters := r₁.takeWhile Char.isAlpha
        if 2 ≤ letters.length then
          let took := letters.take 4
          (run ++ ('.' :: took)) :: fileNamesGo fuel (r₁.drop took.length)
        else
          fileNamesGo fuel rest
      | _ => fileNamesGo fuel rest
    else
      fileNamesGo fuel cs

/-- A JS `Set` built by successive insertion: first occurrence wins. -/
def insertUnique (l : List (List Char)) (x : List Char) : List (List Char) :=
  if l.contains x then l else l ++ [x]

/-- `extractSimpleEntities(text)` from `surprise.js`: proper nouns, code
identifiers of length 4–50, and file names, collected into an
insertion-ordered set. -/
def extractSimpleEntities (text : String) : List (List Char) :=
  let l := text.toList
  let properNouns := (wordRuns l).filter isCapLower
  let codeIds := ((wordRuns l).filter isCodeId).filter
    (fun e => decide (4 ≤ e.length) && decide (e.length ≤ 50))
  let files := fileNamesGo l.length l
  ((properNouns ++ codeIds) ++ files).foldl insertUnique []

/-- Fuel-driven block parser behind `properNounSeq`. -/
def properNounSeqGo : Nat → List Char → Bool
  | _, [] => false
  | 0, _ => false
  | fuel + 1, c :: cs =>
    let lows := cs.takeWhile Char.isLower
    let rest := cs.dropWhile Char.isLower
    c.isUpper && !lows.isEmpty && (rest.isEmpty || properNounSeqGo fuel rest)

/-- `/\b[A-Z][a-z]+(?:[A-Z][a-z]+)*\b/g`: a maximal word run that is a
concatenation of one or more capital-plus-lowercase blocks
(`TypeScript`, `User`, …). -/
def properNounSeq (w : List Char) : Bool := properNounSeqGo w.length w

/-- `/\b[A-Z]{2,}\d*\b/g`: a maximal word run of two or more capitals
followed by digits only (`JWT`, `RS256`). -/
def isAcronym (w : List Char) : Bool :=
  let ups := w.takeWhile Char.isUpper
  let rest := w.dropWhile Char.isUpper
  decide (2 ≤ ups.length) && rest.all Char.isDigit

/-- `/\b[A-Z]{2,}\b/g`: a maximal word run of two or more capitals. -/
def isAllCaps (w : List Char) : Bool :=
  decide (2 ≤ w.length) && w.all Char.isUpper

/-- Alternative `\b[a-z]+[A-Z][a-zA-Z]*\b`: a maximal word run made of a
non-empty lowercase prefix, a capital, then letters. -/
def isTechCamel (w : List Char) : Bool :=
  let lows := w.takeWhile Char.isLower
  let rest := w.dropWhile Char.isLower
  !lows.isEmpty &&
    (match rest with
     | c :: t => c.isUpper && t.all Char.isAlpha
     | [] => false)

/-- Alternative `\b[a-z]+_[a-z_]+\b`: a maximal word run made of a
non-empty lowercase prefix, an underscore, then a non-empty tail of
lowercase letters and underscores. -/
def isTechSnake (w : List Char) : Bool :=
  let lows := w.takeWhile Char.isLower
  let rest := w.dropWhile Char.isLower
  !lows.isEmpty &&
    (match rest with
     | c :: t =>
       c == '_' && !t.isEmpty && t.all (fun d => d.isLower || d == '_')
     | [] => false)

/-- `/\b\d+(?:\.\d+)?(?:-\w+)?\b/g` at a position starting with a digit:
candidate match ends in greedy backtracking order, the first one followed
by a word boundary wins.  Returns the rest of the text after the match. -/
def numMatchAt (l : List Char) : Option (List Char) :=
  let r := l.dropWhile Char.isDigit
  let dotCands : List (List Char) :=
    match r with
    | '.' :: r₁ =>
      let ds₁ := r₁.takeWhile Char.isDigit
      let r₂ := r₁.dropWhile Char.isDigit
      if ds₁.isEmpty then []
      else
        match r₂ with
        | '-' :: r₃ =>
          let wtail := r₃.takeWhile isWordChar
          let r₄ := r₃.dropWhile isWordChar
          if wtail.isEmpty then [r₂] else [r₄, r₂]
        | _ => [r₂]
    | _ => []
  let dashCands : List (List Char) :=
    match r with
    | '-' :: r₃ =>
      let wtail := r₃.takeWhile isWordChar
      let r₄ := r₃.dropWhile isWordChar
      if wtail.isEmpty then [r] else [r₄, r]
    | _ => [r]
  (dotCands ++ dashCands).find?
    (fun rest => match rest with | [] => true | c :: _ => !isWordChar c)

/-- `content.match(/\b\d+(?:\.\d+)?(?:-\w+)?\b/g)` — number of numeric
literal matches; fuel-driven left-to-right scan with `\b` tracked through
`prevWord`. -/
def countNumbersGo (fuel : Nat) (prevWord : Bool) (l : List Char) : Nat :=
  match fuel, l with
  | 0, _ => 0
  | _, [] => 0
  | fuel + 1, c :: cs =>
    if c.isDigit && !prevWord then
      match numMatchAt (c :: cs) with
      | some rest => 1 + countNumbersGo fuel true rest
      | none => countNumbersGo fuel true cs
    else
      countNumbersGo fuel (isWordChar c) cs

def countNumbers (l : List Char) : Nat := countNumbersGo l.length false l

/-- The backtick character (code point 96). -/
def btick : Char := Char.ofNat 96

/-- ``content.match(/`[^`]+`|[A-Za-z0-9_]+\.[A-Za-z0-9_]+/g)`` — number of
code-reference matches: backtick-delimited spans, or dotted identifier
pairs.  Fuel-driven left-to-right scan; the backtick alternative is tried
first at each position. -/
def countCodeRefsGo (fuel : Nat) (l : List Char) : Nat :=
  match fuel, l with
  | 0, _ => 0
  | _, [] => 0
  | fuel + 1, c :: cs =>
    if c == btick then
      let inner := cs.takeWhile (fun d => !(d == btick))
      let rest := cs.dropWhile (fun d => !(d == btick))
      match rest with
      | _ :: rest₁ =>
        if inner.isEmpty then countCodeRefsGo fuel cs
        else 1 + countCodeRefsGo fuel rest₁
      | [] => countCodeRefsGo fuel cs
    else if c.isAlphanum || c == '_' then
      let rest := cs.dropWhile isWordChar
      match rest with
      | '.' :: r₁ =>
        let run₂ := r₁.takeWhile isWordChar
        if run₂.isEmpty then countCodeRefsGo fuel rest
        else 1 + countCodeRefsGo fuel (r₁.dropWhile isWordChar)
      | _ => countCodeRefsGo fuel rest
    else
      countCodeRefsGo fuel cs

def countCodeRefs (l : List Char) : Nat := countCodeRefsGo l.length l

/-- `measureSpecificity(content)` from `surprise.js` (final revision):
proper nouns and acronyms (0.15 each, capped 0.5), numbers (0.15 each,
capped 0.35), code references (0.2 each, capped 0.4), technical terms
(0.15 each, capped 0.3), plus length bonuses at more than 10 and more than
18 whitespace-split words; total capped at 1. -/
def measureSpecificity (content : String) : ℚ :=
  let l := content.toList
  let properNouns := ((wordRuns l).filter properNounSeq).length
  let acronyms := ((wordRuns l).filter isAcronym).length
  let totalEntities := properNouns + acronyms
  let entityScore := min (1/2 : ℚ) ((totalEntities : ℚ) * (3/20))
  let numberScore := min (7/20 : ℚ) ((countNumbers l : ℚ) * (3/20))
  let codeScore := min (2/5 : ℚ) ((countCodeRefs l : ℚ) * (1/5))
  let technicalTerms :=
    ((wordRuns l).filter (fun w => isTechCamel w || isTechSnake w)).length
  let techScore := min (3/10 : ℚ) ((technicalTerms : ℚ) * (3/20))
  let wordCount := (wsSplit l).length
  let lengthBonus :=
    (if 10 < wordCount then (3/20 : ℚ) else 0) +
    (if 18 < wordCount then (3/20 : ℚ) else 0)
  min 1 (entityScore + numberScore + codeScore + techScore + lengthBonus)

/-- The emphasis keyword list of `detectEmphasis`. -/
def emphasisKeywords : List (List Char) :=
  ["important".toList, "critical".toList, "crucial".toList,
   "essential".toList, "must".toList, "need to".toList, "remember".toList,
   "note that".toList, "pay attention".toList, "make sure".toList]

/-- Adjacent duplicate among whitespace-split words (the repetition cue;
the JS loop adds 0.15 once and breaks). -/
def hasAdjacentDup : List (List Char) → Bool
  | a :: b :: t => a == b || hasAdjacentDup (b :: t)
  | _ => false

/-- `detectEmphasis(userContent)` from `surprise.js`: 0.2 per emphasis
keyword present, exclamation marks (0.15 each, capped 0.3), ALL-CAPS words
(0.1 each, capped 0.2), 0.15 for an immediate word repetition; capped
at 1; 0 for empty input (JS falsiness). -/
def detectEmphasis (userContent : String) : ℚ :=
  if userContent = "" then 0
  else
    let l := userContent.toList
    let lower := toLowerL l
    let kwCount := (emphasisKeywords.filter (fun k => includesSub lower k)).length
    let kwScore := (kwCount : ℚ) * (1/5)
    let exclamations := (l.filter (fun c => c == '!')).length
    let exclScore := min (3/10 : ℚ) ((exclamations : ℚ) * (3/20))
    let capsWords := ((wordRuns l).filter isAllCaps).length
    let capsScore := min (1/5 : ℚ) ((capsWords : ℚ) * (1/10))
    let repScore : ℚ := if hasAdjacentDup (wsSplit lower) then 3/20 else 0
    min 1 (kwScore + exclScore + capsScore + repScore)

/-- The slice of a memory object read by the surprise heuristics: its
content and (optionally) its creation time. -/
structure SurpriseMemory where
  content : String
  createdAt : Option Int := none
  deriving Repr, DecidableEq

/-- The optional scoring context. -/
structure SurpriseContext where
  userContent : Option String := none
  deriving Repr, DecidableEq

/-- `(b.createdAt || 0) - (a.createdAt || 0)` descending, the comparator of
`measureContextSwitch`. -/
def surpriseCreatedDesc (a b : SurpriseMemory) : Prop :=
  b.createdAt.getD 0 ≤ a.createdAt.getD 0

instance : DecidableRel surpriseCreatedDesc := fun a b =>
  inferInstanceAs (Decidable (b.createdAt.getD 0 ≤ a.createdAt.getD 0))

/-- `calculateNovelty(newMemory, existingMemories)` from `surprise.js`
(final revision): fraction of entities and of keywords absent from every
existing content, averaged, with the boundary-avoiding reduction applied
when the average is at most 0.5. -/
def calculateNovelty (newMemory : SurpriseMemory)
    (existingMemories : List SurpriseMemory) : ℚ :=
  if existingMemories.isEmpty then 1
  else
    let newEntities := extractSimpleEntities newMemory.content
    let newKeywords := extractKeywords newMemory.content
    let novelEntityCount := (newEntities.filter (fun e =>
      !(existingMemories.any (fun mem =>
        includesSub (toLowerL mem.content.toList) (toLowerL e))))).length
    let entityNovelty : ℚ :=
      if 0 < newEntities.length then
        (novelEntityCount : ℚ) / (newEntities.length : ℚ)
      else 1/2
    let novelKeywordCount := (newKeywords.filter (fun k =>
      !(existingMemories.any (fun mem =>
        includesSub (toLowerL mem.content.toList)
          (toLowerL k.toList))))).length
    let keywordNovelty : ℚ :=
      if 0 < newKeywords.length then
        (novelKeywordCount : ℚ) / (newKeywords.length : ℚ)
      else 1/2
    let avgNovelty := (entityNovelty + keywordNovelty) / 2
    if avgNovelty ≤ 1/2 then min (49/100) (avgNovelty * (19/20))
    else avgNovelty

/-- `detectContradiction(newMemory, existingMemories)` from `surprise.js`
(final revision): negation-polarity mismatch (0.8), antonym pairs between
preference statements (0.6), corrective phrasing with shared entities or
preference verbs (0.7); maximum over the existing memories. -/
def detectContradiction (newMemory : SurpriseMemory)
    (existingMemories : List SurpriseMemory) : ℚ :=
  if existingMemories.isEmpty then 0
  else
    let newLower := toLowerL newMemory.content.toList
    let hasNegation := testWordAlts negationWords none newLower
    let hasContradictoryPhrase := hasContradictoryPhraseB newMemory.content.toList
    let newEntities := extractSimpleEntities newMemory.content
    existingMemories.foldl (fun score mem =>
      let memEntities := extractSimpleEntities mem.content
      let sharedEntities := newEntities.filter (fun e =>
        memEntities.any (fun me => toLowerL me == toLowerL e))
      let memLower := toLowerL mem.content.toList
      let bothAboutPreferences :=
        testWordAlts preferenceWords none newLower &&
        testWordAlts preferenceWords none memLower
      let hasOppositeTerms := oppositeTerms.any (fun p =>
        (includesSub newLower p.1 && includesSub memLower p.2) ||
        (includesSub newLower p.2 && includesSub memLower p.1))
      if sharedEntities.isEmpty && !bothAboutPreferences && !hasOppositeTerms
      then score
      else
        let memHasNegation := testWordAlts negationWordsShort none memLower
        let score₁ := if hasNegation != memHasNegation then max score (4/5) else score
        let score₂ :=
          if hasOppositeTerms && bothAboutPreferences then max score₁ (3/5)
          else score₁
        if hasContradictoryPhrase &&
            (!sharedEntities.isEmpty || bothAboutPreferences) then
          max score₂ (7/10)
        else score₂) 0

/-- A JS `Set` of keywords built by successive insertion. -/
def insertUniqueStr (l : List String) (x : String) : List String :=
  if l.contains x then l else l ++ [x]

/-- `measureContextSwitch(newMemory, existingMemories)` from `surprise.js`:
1 − keyword-overlap ratio between the new memory and the 5 most recently
created existing memories. -/
def measureContextSwitch (newMemory : SurpriseMemory)
    (existingMemories : List SurpriseMemory) : ℚ :=
  if existingMemories.isEmpty then 0
  else
    let recentMemories :=
      (existingMemories.insertionSort surpriseCreatedDesc).take 5
    if recentMemories.isEmpty then 0
    else
      let newKeywords := extractKeywords newMemory.content
      let recentKeywords := recentMemories.foldl (fun s mem =>
        (extractKeywords mem.content).foldl insertUniqueStr s) []
      let overlapping := newKeywords.filter (fun k => recentKeywords.contains k)
      let overlapRatio : ℚ :=
        if 0 < newKeywords.length then
          (overlapping.length : ℚ) / (newKeywords.length : ℚ)
        else 0
      1 - overlapRatio

/-- `calculateSurprise(newMemory, existingMemories, context)` from
`surprise.js` (final revision): the weighted sum of the five sub-scores —
novelty 0.30, contradiction 0.40, specificity 0.15, emphasis 0.10, context
switch 0.05 — clamped to `[0, 1]`.  The embedding is total, so the JS
`try`/`catch` fallback branch is unreachable. -/
def calculateSurprise (newMemory : SurpriseMemory)
    (existingMemories : List SurpriseMemory)
    (context : SurpriseContext := {}) : ℚ :=
  let surprise :=
    calculateNovelty newMemory existingMemories * (3/10) +
    detectContradiction newMemory existingMemories * (2/5) +
    measureSpecificity newMemory.content * (3/20) +
    detectEmphasis (context.userContent.getD "") * (1/10) +
    measureContextSwitch newMemory existingMemories * (1/20)
  min 1 (max 0 surprise)

/-! ## Retriever (`retriever.js`)

Only the pure scoring functions are embedded: `calculateKeywordOverlap` and
`calculateRetrievalScore`.  The latter uses `Math.exp`, so it lives in `ℝ`. -/

/-- Modelled from the spec: `extractKeywords(text)` of the SearchEngine.
`search.js` is required by `retriever.js` but is not among the provided
sources; per §4.2 it lowercases, strips punctuation, splits on whitespace,
and discards stop words and tokens shorter than 4 characters (the same
pipeline as the surprise-side extractor, which its comment calls a
simplified copy of the search one). -/
def searchExtractKeywords (text : String) : List String :=
  (((wsSplit (toLowerL text.toList)).map
      (fun w => w.filter isWordChar)).filter
    (fun w => decide (4 ≤ w.length) &&
      !(surpriseStopwords.contains (String.mk w)))).map String.mk

/-- `calculateKeywordOverlap(content, query)` from `retriever.js`:
`|query-keywords ∩ content-keyword-set| / |query-keywords|`, 0 when either
side is empty. -/
def calculateKeywordOverlap (content query : String) : ℚ :=
  let contentKeywords := (searchExtractKeywords content).foldl insertUniqueStr []
  let queryKeywords := searchExtractKeywords query
  if queryKeywords.length = 0 ∨ contentKeywords.length = 0 then 0
  else
    ((queryKeywords.filter (fun k => contentKeywords.contains k)).length : ℚ) /
      (queryKeywords.length : ℚ)

/-- The slice of a memory object read by `calculateRetrievalScore`. -/
structure RetrievedMemory where
  content : String
  importance : Option ℚ
  createdAt : Int
  lastAccessedAt : Option Int
  deriving Repr, DecidableEq

/-- The weights bag of `calculateRetrievalScore`. -/
structure RetrievalWeights where
  recencyWeight : ℝ
  importanceWeight : ℝ
  relevanceWeight : ℝ

/-- `7 * 24 * 60 * 60 * 1000` — the recency half-life in milliseconds. -/
def halfLifeMs : ℝ := 7 * 24 * 60 * 60 * 1000

/-- `memory.lastAccessedAt || memory.createdAt`: JS `||` also falls back to
`createdAt` when `lastAccessedAt` is the (falsy) number 0. -/
def effectiveAccessTime (m : RetrievedMemory) : Int :=
  match m.lastAccessedAt with
  | some t => if t = 0 then m.createdAt else t
  | none => m.createdAt

/-- `calculateRetrievalScore(memory, query, weights)` from `retriever.js`:
`recencyWeight · exp(−age/halfLife) + importanceWeight · (importance ?? 0.5)
+ relevanceWeight · keywordOverlap(content, query)`, where `age` is the time
since the last access (or creation). -/
noncomputable def calculateRetrievalScore (now : Int) (memory : RetrievedMemory)
    (query : String) (weights : RetrievalWeights) : ℝ :=
  let ageMs : ℝ := (now : ℝ) - (effectiveAccessTime memory : ℝ)
  let recencyScore : ℝ := Real.exp (-(ageMs / halfLifeMs))
  let importanceScore : ℝ := ((memory.importance.getD (1/2) : ℚ) : ℝ)
  let relevanceScore : ℝ := ((calculateKeywordOverlap memory.content query : ℚ) : ℝ)
  weights.recencyWeight * recencyScore +
    weights.importanceWeight * importanceScore +
    weights.relevanceWeight * relevanceScore

/-! ## Tool adapter (`tools.js`) — `memory_add` -/

/-- A loosely-typed JS argument value, as far as the `memory_add` checks
distinguish them: absent (`undefined`), `null`, a string, or a number. -/
inductive JVal where
  | undef
  | null
  | str (s : String)
  | num (q : ℚ)
  deriving Repr, DecidableEq

/-- The argument object of the `memory_add` tool. -/
structure MemoryAddArgs where
  content : JVal := .undef
  type : JVal := .undef
  category : JVal := .undef
  importance : JVal := .undef
  deriving Repr, DecidableEq

/-- The `{ok, content}` envelope every tool call returns; `content` carries
the JSON payload, reduced here to its message/error text. -/
structure ToolResult where
  ok : Bool
  content : String
  deriving Repr, DecidableEq

/-- The five valid memory types. -/
def memoryTypes : List String :=
  ["fact", "preference", "decision", "entity", "relationship"]

/-- `!content || typeof content !== 'string'`, negated: a non-empty
string. -/
def isNonEmptyString : JVal → Bool
  | .str s => !(s == "")
  | _ => false

/-- `['fact', …].includes(type)`: only an equal string passes. -/
def isValidType : JVal → Bool
  | .str s => memoryTypes.contains s
  | _ => false

/-- `typeof importance !== 'number' || importance < 0 || importance > 1`,
negated: a number within `[0, 1]`. -/
def isValidImportance : JVal → Bool
  | .num q => decide (0 ≤ q) && decide (q ≤ 1)
  | _ => false

/-- The destructuring default `type = 'fact'` (applied only to an absent
property). -/
def resolvedType (args : MemoryAddArgs) : JVal :=
  if args.type = .undef then .str "fact" else args.type

/-- The destructuring default `category = 'general'`. -/
def resolvedCategory (args : MemoryAddArgs) : JVal :=
  if args.category = .undef then .str "general" else args.category

/-- The destructuring default `importance = 0.5`. -/
def resolvedImportance (args : MemoryAddArgs) : JVal :=
  if args.importance = .undef then .num (1/2) else args.importance

/-- Unwrap a string value (used only after `isNonEmptyString`/`isValidType`
guards). -/
def jvalString : JVal → String
  | .str s => s
  | _ => ""

/-- Unwrap a numeric value (used only after the `isValidImportance`
guard). -/
def jvalNum : JVal → ℚ
  | .num q => q
  | _ => 0

/-- `memory_add(args, context)` from `tools.js`: validates content, type and
importance in that order, returning `{ok: false}` with an error message and
leaving the store untouched on failure; otherwise calls
`store.createMemory` with `surpriseScore = 0.5` and manual-addition
metadata, catching any store error into `{ok: false}`. -/
def memory_add (args : MemoryAddArgs) (sessionId : Option String)
    (st : MemoryStore) (now : Int) : ToolResult × MemoryStore :=
  if !isNonEmptyString args.content then
    ({ ok := false,
       content := "Content parameter is required and must be a string" }, st)
  else if !isValidType (resolvedType args) then
    ({ ok := false,
       content := "Invalid type. Must be one of: fact, preference, decision, entity, relationship" },
     st)
  else if !isValidImportance (resolvedImportance args) then
    ({ ok := false,
       content := "Importance must be a number between 0 and 1" }, st)
  else
    match createMemory st now
      { content := jvalString args.content
        type := jvalString (resolvedType args)
        category := some (jvalString (resolvedCategory args))
        sessionId := sessionId
        importance := some (jvalNum (resolvedImportance args))
        surpriseScore := some (1/2)
        metadata := some
          [("manual", "true"), ("addedBy", "user"),
           ("timestamp", toString now)] } with
    | .ok (_, st') => ({ ok := true, content := "Memory stored successfully" }, st')
    | .error e => ({ ok := false, content := "Failed to add memory: " ++ e }, st)

/-! ## Theorems settling the claims -/

/-- C3: for every candidate memory, every list of existing memories and
every context, `calculateSurprise` is total (the embedding is a total
function) and returns a value in `[0, 1]` — the final
`Math.min(1, Math.max(0, surprise))` clamp guarantees the range whatever
the sub-scores produce. -/
theorem calculateSurprise_unitInterval (newMemory : SurpriseMemory)
    (existingMemories : List SurpriseMemory) (context : SurpriseContext) :
    0 ≤ calculateSurprise newMemory existingMemories context ∧
      calculateSurprise newMemory existingMemories context ≤ 1 := by
  unfold calculateSurprise
  exact ⟨le_min (by norm_num) (le_max_left 0 _), min_le_left 1 _⟩

set_option maxRecDepth 100000 in
/-- C4: on the scenario — new memory `User prefers TypeScript over
JavaScript`, one existing memory `User prefers JavaScript for all
projects`, user context `Actually, I prefer TypeScript` — the final
revision of the heuristics scores surprise exactly 963/2000 = 0.4815,
which is strictly greater than 0.4. -/
theorem calculateSurprise_contradiction_scenario :
    calculateSurprise { content := "User prefers TypeScript over JavaScript" }
        [{ content := "User prefers JavaScript for all projects" }]
        { userContent := some "Actually, I prefer TypeScript" } = 963/2000 ∧
      (2/5 : ℚ) <
        calculateSurprise { content := "User prefers TypeScript over JavaScript" }
          [{ content := "User prefers JavaScript for all projects" }]
          { userContent := some "Actually, I prefer TypeScript" } := by
  with_unfolding_all decide

/-- C8 (counterexample): `countMemories` ignores a supplied `sessionId`
entirely — on a store holding one session-scoped and one global memory, a
count "filtered" to a different session still returns 2, while the count
the claim describes would return 0. -/
theorem countMemories_session_counterexample :
    countMemories
        { rows :=
            [{ id := 1, session_id := some "a", content := "x", type := "fact",
               category := none, importance := none, surprise_score := none,
               access_count := none, decay_factor := none,
               source_turn_id := none, created_at := 0, updated_at := 0,
               last_accessed_at := none, metadata := none },
             { id := 2, session_id := none, content := "y", type := "fact",
               category := none, importance := none, surprise_score := none,
               access_count := none, decay_factor := none,
               source_turn_id := none, created_at := 0, updated_at := 0,
               last_accessed_at := none, metadata := none }],
          nextId := 3 }
        { sessionId := some "b" } = 2 ∧
      countMemoriesSpec
        { rows :=
            [{ id := 1, session_id := some "a", content := "x", type := "fact",
               category := none, importance := none, surprise_score := none,
               access_count := none, decay_factor := none,
               source_turn_id := none, created_at := 0, updated_at := 0,
               last_accessed_at := none, metadata := none },
             { id := 2, session_id := none, content := "y", type := "fact",
               category := none, importance := none, surprise_score := none,
               access_count := none, decay_factor := none,
               source_turn_id := none, created_at := 0, updated_at := 0,
               last_accessed_at := none, metadata := none }],
          nextId := 3 }
        { sessionId := some "b" } = 0 := by
  with_unfolding_all decide

/-- C8 (amended): `countMemories` returns the total number of stored
memories whatever options are supplied — its JS signature takes no
parameter, so `sessionId` is never read; consequently the session-filtered
count of the spec never exceeds what `countMemories` returns. -/
theorem countMemories_ignores_options (st : MemoryStore)
    (options : CountMemoriesOptions) :
    countMemories st options = st.rows.length ∧
      countMemoriesSpec st options ≤ countMemories st options := by
  refine ⟨rfl, ?_⟩
  unfold countMemoriesSpec countMemories
  match options.sessionId with
  | none => exact le_rfl
  | some s => exact List.length_filter_le _ _

/-- C1 (counterexample): `createMemory` performs no clamping — supplying
`importance = 2` persists and returns a record with `importance = 2`,
violating `importance ≤ 1`. -/
theorem createMemory_clamps_counterexample :
    (createMemory { rows := [], nextId := 1 } 0
        { content := "x", type := "fact", importance := some 2 }).toOption.map
      (fun p => p.1.importance) = some 2 ∧
      ¬ ((2 : ℚ) ≤ 1) := by
  with_unfolding_all decide

/-- C1 (amended): `createMemory` stores `importance` and `surpriseScore`
exactly as supplied, without clamping; the documented ranges
`0 ≤ importance ≤ 1` and `0 ≤ surpriseScore ≤ 1` therefore hold for the
created record precisely when the caller supplies in-range values or omits
them (defaults 0.5 and 0). -/
theorem createMemory_passthrough_range (st : MemoryStore) (now : Int)
    (o : CreateMemoryOptions) (hc : o.content ≠ "") (ht : o.type ≠ "") :
    ∃ mem st', createMemory st now o = .ok (mem, st') ∧
      mem.importance = o.importance.getD (1/2) ∧
      mem.surpriseScore = o.surpriseScore.getD 0 ∧
      ((o.importance = none ∨ ∃ q, o.importance = some q ∧ 0 ≤ q ∧ q ≤ 1) →
        0 ≤ mem.importance ∧ mem.importance ≤ 1) ∧
      ((o.surpriseScore = none ∨
          ∃ q, o.surpriseScore = some q ∧ 0 ≤ q ∧ q ≤ 1) →
        0 ≤ mem.surpriseScore ∧ mem.surpriseScore ≤ 1) := by
  have hcond : ¬ (o.content = "" ∨ o.type = "") := by
    rintro (h | h)
    exacts [hc h, ht h]
  simp only [createMemory, if_neg hcond]
  refine ⟨_, _, rfl, rfl, rfl, ?_, ?_⟩
  · rintro (h | ⟨q, hq, h0, h1⟩)
    · simp only [h, Option.getD_none]
      norm_num
    · simp [hq, h0, h1]
  · rintro (h | ⟨q, hq, h0, h1⟩)
    · simp [h]
    · simp [hq, h0, h1]

/-- Witness for C1's amended theorem at a concrete input: the hypotheses
hold for content `x` and type `fact`, and with importance left unset the
created record satisfies the range. -/
theorem createMemory_passthrough_range_witness :
    ({ content := "x", type := "fact" } : CreateMemoryOptions).content ≠ "" ∧
    ({ content := "x", type := "fact" } : CreateMemoryOptions).type ≠ "" ∧
    ∃ mem st',
      createMemory { rows := [], nextId := 1 } 0
          { content := "x", type := "fact" } = .ok (mem, st') ∧
        0 ≤ mem.importance ∧ mem.importance ≤ 1 := by
  refine ⟨by decide, by decide, ?_⟩
  obtain ⟨mem, st', h₁, _, _, h₄, _⟩ :=
    createMemory_passthrough_range { rows := [], nextId := 1 } 0
      { content := "x", type := "fact" } (by decide) (by decide)
  exact ⟨mem, st', h₁, h₄ (Or.inl rfl)⟩

/-- C2: round-trip — for every input with non-empty content and type (and a
fresh rowid, as the primary key guarantees), `createMemory` succeeds,
`getMemory` of the assigned id returns a record equal to the one
`createMemory` returned, and every unset field carries its documented
default: importance 0.5, surpriseScore 0, accessCount 0, decayFactor 1.0,
sessionId/category/sourceTurnId/lastAccessedAt null, metadata empty,
createdAt = updatedAt = now. -/
theorem createMemory_getMemory_roundtrip (st : MemoryStore) (now : Int)
    (o : CreateMemoryOptions) (hc : o.content ≠ "") (ht : o.type ≠ "")
    (hfresh : FreshId st) :
    ∃ mem st', createMemory st now o = .ok (mem, st') ∧
      getMemory st' mem.id = some mem ∧
      mem.createdAt = now ∧ mem.updatedAt = now ∧ mem.lastAccessedAt = none ∧
      (o.importance = none → mem.importance = 1/2) ∧
      (o.surpriseScore = none → mem.surpriseScore = 0) ∧
      (o.accessCount = none → mem.accessCount = 0) ∧
      (o.decayFactor = none → mem.decayFactor = 1) ∧
      (o.sessionId = none → mem.sessionId = none) ∧
      (o.category = none → mem.category = none) ∧
      (o.sourceTurnId = none → mem.sourceTurnId = none) ∧
      (o.metadata = none → mem.metadata = []) := by
  have hcond : ¬ (o.content = "" ∨ o.type = "") := by
    rintro (h | h)
    exacts [hc h, ht h]
  have hnone : st.rows.find? (fun r => r.id == st.nextId) = none := by
    rw [List.find?_eq_none]
    intro r hr
    simpa using hfresh r hr
  simp only [createMemory, if_neg hcond]
  refine ⟨_, _, rfl, ?_, rfl, rfl, rfl, ?_, ?_, ?_, ?_, ?_, ?_, ?_, ?_⟩
  · simp [getMemory, getMemoryRow, List.find?_append, hnone, List.find?,
      toMemory, parseJSON, serialize]
  all_goals intro h
  all_goals simp [h]

/-- Witness for C2 at a concrete input: an empty store is fresh, the
hypotheses hold for content `x` and type `fact`, and the round-trip
equality holds with both timestamps set to the creation time. -/
theorem createMemory_getMemory_roundtrip_witness :
    FreshId { rows := [], nextId := 1 } ∧
    ∃ mem st',
      createMemory { rows := [], nextId := 1 } 5
          { content := "x", type := "fact" } = .ok (mem, st') ∧
        getMemory st' mem.id = some mem ∧
        mem.createdAt = 5 ∧ mem.updatedAt = 5 ∧ mem.importance = 1/2 := by
  refine ⟨by decide, ?_⟩
  obtain ⟨mem, st', h₁, h₂, h₃, h₄, _, himp, _⟩ :=
    createMemory_getMemory_roundtrip { rows := [], nextId := 1 } 5
      { content := "x", type := "fact" } (by decide) (by decide) (by decide)
  exact ⟨mem, st', h₁, h₂, h₃, h₄, himp rfl⟩

/-- C7: `getRecentMemories` with `sessionId = null` applies no session
filter at all — the result is exactly the whole table sorted by descending
`created_at` and truncated to `limit`; in particular it is no longer than
`limit`, ordered by descending creation time, and every returned record
(global or session-scoped alike) comes from the table. -/
theorem getRecentMemories_nullSession (st : MemoryStore) (limit : Nat) :
    getRecentMemories st { limit := limit, sessionId := none } =
      ((st.rows.insertionSort createdDesc).take limit).map toMemory ∧
    (getRecentMemories st { limit := limit, sessionId := none }).length ≤
      limit ∧
    (getRecentMemories st { limit := limit, sessionId := none }).Pairwise
      (fun a b => b.createdAt ≤ a.createdAt) ∧
    ∀ m ∈ getRecentMemories st { limit := limit, sessionId := none },
      ∃ r ∈ st.rows, toMemory r = m := by
  have hfilter : st.rows.filter (sessionFilter none) = st.rows :=
    List.filter_eq_self.mpr (fun a _ => rfl)
  have hmain : getRecentMemories st { limit := limit, sessionId := none } =
      ((st.rows.insertionSort createdDesc).take limit).map toMemory := by
    simp [getRecentMemories, hfilter]
  refine ⟨hmain, ?_, ?_, ?_⟩
  · rw [hmain]
    simp [min_le_left]
  · rw [hmain]
    have hsorted : List.Pairwise createdDesc (st.rows.insertionSort createdDesc) :=
      List.sorted_insertionSort createdDesc st.rows
    have htake : List.Pairwise createdDesc
        ((st.rows.insertionSort createdDesc).take limit) :=
      hsorted.sublist (List.take_sublist _ _)
    exact (List.pairwise_map).mpr (htake.imp (fun h => h))
  · rw [hmain]
    intro m hm
    obtain ⟨r, hr, hrm⟩ := List.mem_map.mp hm
    refine ⟨r, ?_, hrm⟩
    exact (List.perm_insertionSort createdDesc st.rows).mem_iff.mp
      (List.mem_of_mem_take hr)

/-- Witness for C7 at a concrete input: on a two-row store (one global, one
session-scoped) with `sessionId = null` and limit 10, both records are
returned, newest first. -/
theorem getRecentMemories_nullSession_witness :
    (getRecentMemories
        { rows :=
            [{ id := 1, session_id := some "a", content := "x", type := "fact",
               category := none, importance := none, surprise_score := none,
               access_count := none, decay_factor := none,
               source_turn_id := none, created_at := 10, updated_at := 10,
               last_accessed_at := none, metadata := none },
             { id := 2, session_id := none, content := "y", type := "fact",
               category := none, importance := none, surprise_score := none,
               access_count := none, decay_factor := none,
               source_turn_id := none, created_at := 20, updated_at := 20,
               last_accessed_at := none, metadata := none }],
          nextId := 3 }
        { limit := 10, sessionId := none }).length ≤ 10 :=
  (getRecentMemories_nullSession
    { rows :=
        [{ id := 1, session_id := some "a", content := "x", type := "fact",
           category := none, importance := none, surprise_score := none,
           access_count := none, decay_factor := none,
           source_turn_id := none, created_at := 10, updated_at := 10,
           last_accessed_at := none, metadata := none },
         { id := 2, session_id := none, content := "y", type := "fact",
           category := none, importance := none, surprise_score := none,
           access_count := none, decay_factor := none,
           source_turn_id := none, created_at := 20, updated_at := 20,
           last_accessed_at := none, metadata := none }],
      nextId := 3 } 10).2.1

/-- `find?` over an id-targeted row rewrite: mapping a function that only
touches rows satisfying the predicate (and preserves it) commutes with the
lookup. -/
theorem find?_map_targeted (p : MemoryRow → Bool) (g : MemoryRow → MemoryRow)
    (hg : ∀ r, p (g r) = p r) :
    ∀ l : List MemoryRow,
      (l.map (fun r => if p r then g r else r)).find? p =
        (l.find? p).map (fun r => if p r then g r else r)
  | [] => rfl
  | a :: l => by
    by_cases ha : p a
    · rw [List.map_cons, if_pos ha, List.find?_cons_of_pos _ ((hg a).trans ha),
        List.find?_cons_of_pos _ ha]
      simp [ha]
    · have ha' : ¬ p a = true := ha
      rw [List.map_cons, if_neg ha', List.find?_cons_of_neg _ ha',
        List.find?_cons_of_neg _ ha', find?_map_targeted p g hg l]

/-- C6: `updateMemory` fails with the not-found error when the id is
absent; otherwise it succeeds, bumps only `updatedAt` to now, leaves
`createdAt`, `sessionId`, `accessCount`, `lastAccessedAt` and
`sourceTurnId` untouched (they are outside the UPDATE statement), and every
field not present in the partial update keeps its prior value. -/
theorem updateMemory_spec (st : MemoryStore) (now : Int) (id : Nat)
    (updates : UpdateMemoryOptions) :
    (getMemory st id = none →
      updateMemory st now id updates =
        .error ("Memory with ID " ++ toString id ++ " not found")) ∧
    (∀ mem, getMemory st id = some mem →
      ∃ mem' st', updateMemory st now id updates = .ok (some mem', st') ∧
        mem'.updatedAt = now ∧ mem'.id = mem.id ∧
        mem'.createdAt = mem.createdAt ∧ mem'.sessionId = mem.sessionId ∧
        mem'.accessCount = mem.accessCount ∧
        mem'.lastAccessedAt = mem.lastAccessedAt ∧
        mem'.sourceTurnId = mem.sourceTurnId ∧
        (updates.content = none → mem'.content = mem.content) ∧
        (updates.type = none → mem'.type = mem.type) ∧
        (updates.category = none → mem'.category = mem.category) ∧
        (updates.importance = none → mem'.importance = mem.importance) ∧
        (updates.surpriseScore = none →
          mem'.surpriseScore = mem.surpriseScore) ∧
        (updates.decayFactor = none → mem'.decayFactor = mem.decayFactor) ∧
        (updates.metadata = none → mem'.metadata = mem.metadata)) := by
  constructor
  · intro h
    unfold updateMemory
    rw [h]
  · intro mem hmem
    obtain ⟨row, hrow, hmemrow⟩ : ∃ row,
        getMemoryRow st id = some row ∧ toMemory row = mem := by
      unfold getMemory at hmem
      cases hfind : getMemoryRow st id with
      | none => rw [hfind] at hmem; exact absurd hmem (by simp)
      | some r =>
        rw [hfind] at hmem
        exact ⟨r, rfl, Option.some.inj hmem⟩
    subst hmemrow
    have hrow' : st.rows.find? (fun r => r.id == id) = some row := hrow
    have hp : (row.id == id) = true := by
      have h := List.find?_some hrow'
      exact h
    have hfind' := find?_map_targeted (fun r => r.id == id)
      (applyUpdate (toMemory row) updates now) (fun _ => rfl) st.rows
    have hget : getMemory
        { st with rows := st.rows.map (fun r =>
            if r.id == id then applyUpdate (toMemory row) updates now r
            else r) } id =
        some (toMemory (applyUpdate (toMemory row) updates now row)) := by
      unfold getMemory getMemoryRow
      simp only [hfind']
      rw [show st.rows.find? (fun r => r.id == id) = some row from hrow]
      have hid : row.id = id := by simpa using hp
      simp [hid]
    refine ⟨toMemory (applyUpdate (toMemory row) updates now row),
      { st with rows := st.rows.map (fun r =>
          if r.id == id then applyUpdate (toMemory row) updates now r
          else r) }, ?_,
      rfl, rfl, rfl, rfl, rfl, rfl, rfl, ?_, ?_, ?_, ?_, ?_, ?_, ?_⟩
    · unfold updateMemory
      rw [show getMemory st id = some (toMemory row) from hmem]
      simp only [hget]
    all_goals intro h
    all_goals simp [toMemory, applyUpdate, parseJSON, serialize, h, Option.orElse]

/-- Witness for C6 at a concrete input: updating an existing row with an
empty partial bumps `updatedAt` and keeps the content. -/
theorem updateMemory_spec_witness :
    ∃ mem' st',
      updateMemory
          { rows :=
              [{ id := 1, session_id := none, content := "x", type := "fact",
                 category := none, importance := none, surprise_score := none,
                 access_count := none, decay_factor := none,
                 source_turn_id := none, created_at := 7, updated_at := 7,
                 last_accessed_at := none, metadata := none }],
            nextId := 2 } 50 1 {} = .ok (some mem', st') ∧
        mem'.updatedAt = 50 ∧ mem'.createdAt = 7 ∧ mem'.content = "x" := by
  obtain ⟨mem', st', h₁, h₂, _, h₃, _, _, _, _, hcont, _⟩ :=
    (updateMemory_spec
      { rows :=
          [{ id := 1, session_id := none, content := "x", type := "fact",
             category := none, importance := none, surprise_score := none,
             access_count := none, decay_factor := none,
             source_turn_id := none, created_at := 7, updated_at := 7,
             last_accessed_at := none, metadata := none }],
        nextId := 2 } 50 1 {}).2
      (toMemory
        { id := 1, session_id := none, content := "x", type := "fact",
          category := none, importance := none, surprise_score := none,
          access_count := none, decay_factor := none,
          source_turn_id := none, created_at := 7, updated_at := 7,
          last_accessed_at := none, metadata := none }) rfl
  exact ⟨mem', st', h₁, h₂, h₃.trans rfl, (hcont rfl).trans rfl⟩

/-- A `pruneByCount` call on a table that already fits within `maxCount`
deletes nothing and leaves the store unchanged: every row's id appears in
the retained-id list, which is the whole sorted table. -/
theorem pruneByCount_keep_all (st : MemoryStore) (maxCount : Nat)
    (hlen : st.rows.length ≤ maxCount) :
    pruneByCount st maxCount = (0, st) := by
  have hfix : st.rows.filter (fun r =>
      (((st.rows.insertionSort importanceCreatedDesc).take maxCount).map
        (fun r => r.id)).contains r.id) = st.rows := by
    rw [List.take_of_length_le (by
      rw [(List.perm_insertionSort importanceCreatedDesc st.rows).length_eq]
      exact hlen)]
    refine List.filter_eq_self.mpr (fun r hr => ?_)
    have h : r.id ∈ (st.rows.insertionSort importanceCreatedDesc).map
        (fun r => r.id) :=
      List.mem_map_of_mem _
        ((List.perm_insertionSort importanceCreatedDesc st.rows).mem_iff.mpr hr)
    simpa [List.contains, List.elem_iff] using h
  unfold pruneByCount
  simp only [hfix, Nat.sub_self]

/-- When row ids are distinct (the primary-key invariant), a `pruneByCount`
call retains at most `maxCount` rows. -/
theorem pruneByCount_length_le (st : MemoryStore) (maxCount : Nat)
    (hnodup : (st.rows.map (fun r => r.id)).Nodup) :
    (pruneByCount st maxCount).2.rows.length ≤ maxCount := by
  have hrows : (pruneByCount st maxCount).2.rows =
      st.rows.filter (fun r =>
        (((st.rows.insertionSort importanceCreatedDesc).take maxCount).map
          (fun r => r.id)).contains r.id) := rfl
  rw [hrows]
  have h1 : ((st.rows.filter (fun r =>
      (((st.rows.insertionSort importanceCreatedDesc).take maxCount).map
        (fun r => r.id)).contains r.id)).map (fun r => r.id)).Nodup :=
    hnodup.sublist ((List.filter_sublist st.rows).map _)
  have h2 : (st.rows.filter (fun r =>
      (((st.rows.insertionSort importanceCreatedDesc).take maxCount).map
        (fun r => r.id)).contains r.id)).map (fun r => r.id) ⊆
      ((st.rows.insertionSort importanceCreatedDesc).take maxCount).map
        (fun r => r.id) := by
    intro x hx
    obtain ⟨r, hr, rfl⟩ := List.mem_map.mp hx
    have hc := (List.mem_filter.mp hr).2
    simpa [List.contains, List.elem_iff] using hc
  calc (st.rows.filter (fun r =>
        (((st.rows.insertionSort importanceCreatedDesc).take maxCount).map
          (fun r => r.id)).contains r.id)).length
      = ((st.rows.filter (fun r =>
          (((st.rows.insertionSort importanceCreatedDesc).take maxCount).map
            (fun r => r.id)).contains r.id)).map (fun r => r.id)).length :=
        (List.length_map _ _).symm
    _ ≤ (((st.rows.insertionSort importanceCreatedDesc).take maxCount).map
          (fun r => r.id)).length :=
        (List.subperm_of_subset h1 h2).length_le
    _ ≤ maxCount := by
        rw [List.length_map, List.length_take]
        exact min_le_left _ _

/-- C9: destructive pruning is idempotent — with no intervening writes (and
the same `now`), a second consecutive `pruneOldMemories` with the same
maximum age deletes nothing, and a second consecutive `pruneByCount` with
the same maximum count deletes nothing; neither call errors.  The
`pruneByCount` half uses the primary-key invariant that row ids are
distinct. -/
theorem prune_idempotent (st : MemoryStore) (now olderThanMs : Int)
    (maxCount : Nat) (hnodup : (st.rows.map (fun r => r.id)).Nodup) :
    (pruneOldMemories (pruneOldMemories st now olderThanMs).2 now
      olderThanMs).1 = 0 ∧
    (pruneByCount (pruneByCount st maxCount).2 maxCount).1 = 0 := by
  constructor
  · have h : ∀ (l : List MemoryRow) (p : MemoryRow → Bool),
        (l.filter p).filter p = l.filter p := fun l p => by
      rw [List.filter_filter]
      congr 1
      funext a
      exact Bool.and_self (p a)
    simp [pruneOldMemories, h]
  · rw [pruneByCount_keep_all (pruneByCount st maxCount).2 maxCount
      (pruneByCount_length_le st maxCount hnodup)]

/-- Witness for C9 at a concrete input: a two-row store with distinct ids;
both second prune calls delete zero rows. -/
theorem prune_idempotent_witness :
    (pruneOldMemories
        (pruneOldMemories
          { rows :=
              [{ id := 1, session_id := none, content := "x", type := "fact",
                 category := none, importance := none, surprise_score := none,
                 access_count := none, decay_factor := none,
                 source_turn_id := none, created_at := 10, updated_at := 10,
                 last_accessed_at := none, metadata := none },
               { id := 2, session_id := none, content := "y", type := "fact",
                 category := none, importance := none, surprise_score := none,
                 access_count := none, decay_factor := none,
                 source_turn_id := none, created_at := 200, updated_at := 200,
                 last_accessed_at := none, metadata := none }],
            nextId := 3 } 300 100).2 300 100).1 = 0 ∧
    (pruneByCount
        (pruneByCount
          { rows :=
              [{ id := 1, session_id := none, content := "x", type := "fact",
                 category := none, importance := none, surprise_score := none,
                 access_count := none, decay_factor := none,
                 source_turn_id := none, created_at := 10, updated_at := 10,
                 last_accessed_at := none, metadata := none },
               { id := 2, session_id := none, content := "y", type := "fact",
                 category := none, importance := none, surprise_score := none,
                 access_count := none, decay_factor := none,
                 source_turn_id := none, created_at := 200, updated_at := 200,
                 last_accessed_at := none, metadata := none }],
            nextId := 3 } 1).2 1).1 = 0 :=
  prune_idempotent
    { rows :=
        [{ id := 1, session_id := none, content := "x", type := "fact",
           category := none, importance := none, surprise_score := none,
           access_count := none, decay_factor := none,
           source_turn_id := none, created_at := 10, updated_at := 10,
           last_accessed_at := none, metadata := none },
         { id := 2, session_id := none, content := "y", type := "fact",
           category := none, importance := none, surprise_score := none,
           access_count := none, decay_factor := none,
           source_turn_id := none, created_at := 200, updated_at := 200,
           last_accessed_at := none, metadata := none }],
      nextId := 3 } 300 100 1 (by decide)

/-- C5: monotonicity of the pure retrieval score.  With non-negative
weights held fixed, the score is monotone (and strictly monotone when the
corresponding weight is positive) in each signal separately: the effective
access time (`lastAccessedAt` when set, else `createdAt`) moving closer to
now, the stored importance, and the keyword overlap between content and
query. -/
theorem calculateRetrievalScore_monotone (now : Int) (query : String)
    (w : RetrievalWeights) (hr : 0 ≤ w.recencyWeight)
    (hi : 0 ≤ w.importanceWeight) (hv : 0 ≤ w.relevanceWeight) :
    (∀ m₁ m₂ : RetrievedMemory, m₁.content = m₂.content →
      m₁.importance = m₂.importance →
      effectiveAccessTime m₁ ≤ effectiveAccessTime m₂ →
      calculateRetrievalScore now m₁ query w ≤
        calculateRetrievalScore now m₂ query w) ∧
    (∀ m₁ m₂ : RetrievedMemory, m₁.content = m₂.content →
      m₁.createdAt = m₂.createdAt → m₁.lastAccessedAt = m₂.lastAccessedAt →
      m₁.importance.getD (1/2) ≤ m₂.importance.getD (1/2) →
      calculateRetrievalScore now m₁ query w ≤
        calculateRetrievalScore now m₂ query w) ∧
    (∀ m₁ m₂ : RetrievedMemory, m₁.createdAt = m₂.createdAt →
      m₁.lastAccessedAt = m₂.lastAccessedAt →
      m₁.importance = m₂.importance →
      calculateKeywordOverlap m₁.content query ≤
        calculateKeywordOverlap m₂.content query →
      calculateRetrievalScore now m₁ query w ≤
        calculateRetrievalScore now m₂ query w) ∧
    (0 < w.recencyWeight →
      ∀ m₁ m₂ : RetrievedMemory, m₁.content = m₂.content →
      m₁.importance = m₂.importance →
      effectiveAccessTime m₁ < effectiveAccessTime m₂ →
      calculateRetrievalScore now m₁ query w <
        calculateRetrievalScore now m₂ query w) ∧
    (0 < w.importanceWeight →
      ∀ m₁ m₂ : RetrievedMemory, m₁.content = m₂.content →
      m₁.createdAt = m₂.createdAt → m₁.lastAccessedAt = m₂.lastAccessedAt →
      m₁.importance.getD (1/2) < m₂.importance.getD (1/2) →
      calculateRetrievalScore now m₁ query w <
        calculateRetrievalScore now m₂ query w) ∧
    (0 < w.relevanceWeight →
      ∀ m₁ m₂ : RetrievedMemory, m₁.createdAt = m₂.createdAt →
      m₁.lastAccessedAt = m₂.lastAccessedAt →
      m₁.importance = m₂.importance →
      calculateKeywordOverlap m₁.content query <
        calculateKeywordOverlap m₂.content query →
      calculateRetrievalScore now m₁ query w <
        calculateRetrievalScore now m₂ query w) := by
  have hhalf : (0 : ℝ) < halfLifeMs := by norm_num [halfLifeMs]
  have heff : ∀ m₁ m₂ : RetrievedMemory, m₁.createdAt = m₂.createdAt →
      m₁.lastAccessedAt = m₂.lastAccessedAt →
      effectiveAccessTime m₁ = effectiveAccessTime m₂ := by
    intro m₁ m₂ h₁ h₂
    unfold effectiveAccessTime
    rw [h₁, h₂]
  have hexp_le : ∀ m₁ m₂ : RetrievedMemory,
      effectiveAccessTime m₁ ≤ effectiveAccessTime m₂ →
      Real.exp (-(((now : ℝ) - ((effectiveAccessTime m₁ : Int) : ℝ)) /
        halfLifeMs)) ≤
      Real.exp (-(((now : ℝ) - ((effectiveAccessTime m₂ : Int) : ℝ)) /
        halfLifeMs)) := by
    intro m₁ m₂ h
    apply Real.exp_le_exp.mpr
    apply neg_le_neg
    apply (div_le_div_iff_of_pos_right hhalf).mpr
    exact sub_le_sub_left (Int.cast_le.mpr h) _
  have hexp_lt : ∀ m₁ m₂ : RetrievedMemory,
      effectiveAccessTime m₁ < effectiveAccessTime m₂ →
      Real.exp (-(((now : ℝ) - ((effectiveAccessTime m₁ : Int) : ℝ)) /
        halfLifeMs)) <
      Real.exp (-(((now : ℝ) - ((effectiveAccessTime m₂ : Int) : ℝ)) /
        halfLifeMs)) := by
    intro m₁ m₂ h
    apply Real.exp_lt_exp.mpr
    apply neg_lt_neg
    apply (div_lt_div_iff_of_pos_right hhalf).mpr
    exact sub_lt_sub_left (Int.cast_lt.mpr h) _
  refine ⟨?_, ?_, ?_, ?_, ?_, ?_⟩
  · intro m₁ m₂ hc himp h
    simp only [calculateRetrievalScore, hc, himp]
    exact add_le_add
      (add_le_add (mul_le_mul_of_nonneg_left (hexp_le m₁ m₂ h) hr) le_rfl)
      le_rfl
  · intro m₁ m₂ hc hcr hla h
    simp only [calculateRetrievalScore, hc, heff m₁ m₂ hcr hla]
    exact add_le_add
      (add_le_add le_rfl
        (mul_le_mul_of_nonneg_left (Rat.cast_le.mpr h) hi))
      le_rfl
  · intro m₁ m₂ hcr hla himp h
    simp only [calculateRetrievalScore, himp, heff m₁ m₂ hcr hla]
    exact add_le_add le_rfl
      (mul_le_mul_of_nonneg_left (Rat.cast_le.mpr h) hv)
  · intro hrpos m₁ m₂ hc himp h
    simp only [calculateRetrievalScore, hc, himp]
    exact add_lt_add_of_lt_of_le
      (add_lt_add_of_lt_of_le
        (mul_lt_mul_of_pos_left (hexp_lt m₁ m₂ h) hrpos) le_rfl)
      le_rfl
  · intro hipos m₁ m₂ hc hcr hla h
    simp only [calculateRetrievalScore, hc, heff m₁ m₂ hcr hla]
    exact add_lt_add_of_lt_of_le
      (add_lt_add_of_le_of_lt le_rfl
        (mul_lt_mul_of_pos_left (Rat.cast_lt.mpr h) hipos))
      le_rfl
  · intro hvpos m₁ m₂ hcr hla himp h
    simp only [calculateRetrievalScore, himp, heff m₁ m₂ hcr hla]
    exact add_lt_add_of_le_of_lt le_rfl
      (mul_lt_mul_of_pos_left (Rat.cast_lt.mpr h) hvpos)

/-- Witness for C5 at a concrete input: with the default-style weights
(0.3, 0.4, 0.3), a memory created at time 500 scores at least as high as
the same memory created at time 0, against the query `alpha` at
`now = 1000`. -/
theorem calculateRetrievalScore_monotone_witness :
    calculateRetrievalScore 1000
        { content := "alpha beta", importance := some (1/2), createdAt := 0,
          lastAccessedAt := none } "alpha"
        { recencyWeight := 3/10, importanceWeight := 2/5,
          relevanceWeight := 3/10 } ≤
      calculateRetrievalScore 1000
        { content := "alpha beta", importance := some (1/2),
          createdAt := 500, lastAccessedAt := none } "alpha"
        { recencyWeight := 3/10, importanceWeight := 2/5,
          relevanceWeight := 3/10 } :=
  (calculateRetrievalScore_monotone 1000 "alpha"
      { recencyWeight := 3/10, importanceWeight := 2/5,
        relevanceWeight := 3/10 }
      (by norm_num) (by norm_num) (by norm_num)).1
    { content := "alpha beta", importance := some (1/2), createdAt := 0,
      lastAccessedAt := none }
    { content := "alpha beta", importance := some (1/2), createdAt := 500,
      lastAccessedAt := none }
    rfl rfl (by decide)

/-- C10: input validation happens at the tool boundary — whenever the
content argument is not a non-empty string, the (default-resolved) type is
not one of the five enum values, or the (default-resolved) importance is
not a number in `[0, 1]`, `memory_add` returns `ok = false` with a
non-empty error message and leaves the store unchanged; being a total
function, it never throws. -/
theorem memory_add_rejects_invalid (args : MemoryAddArgs)
    (sessionId : Option String) (st : MemoryStore) (now : Int)
    (h : isNonEmptyString args.content = false ∨
         isValidType (resolvedType args) = false ∨
         isValidImportance (resolvedImportance args) = false) :
    (memory_add args sessionId st now).1.ok = false ∧
    (memory_add args sessionId st now).2 = st ∧
    (memory_add args sessionId st now).1.content ≠ "" := by
  cases hb1 : isNonEmptyString args.content with
  | false =>
    have heq : memory_add args sessionId st now =
        ({ ok := false,
           content := "Content parameter is required and must be a string" },
         st) := by
      unfold memory_add
      rw [hb1]
      rfl
    rw [heq]
    refine ⟨rfl, rfl, ?_⟩
    show ("Content parameter is required and must be a string" : String) ≠ ""
    decide
  | true =>
    cases hb2 : isValidType (resolvedType args) with
    | false =>
      have heq : memory_add args sessionId st now =
          ({ ok := false,
             content := "Invalid type. Must be one of: fact, preference, decision, entity, relationship" },
           st) := by
        unfold memory_add
        rw [hb1, hb2]
        rfl
      rw [heq]
      refine ⟨rfl, rfl, ?_⟩
      show ("Invalid type. Must be one of: fact, preference, decision, entity, relationship" : String) ≠ ""
      decide
    | true =>
      cases hb3 : isValidImportance (resolvedImportance args) with
      | false =>
        have heq : memory_add args sessionId st now =
            ({ ok := false,
               content := "Importance must be a number between 0 and 1" },
             st) := by
          unfold memory_add
          rw [hb1, hb2, hb3]
          rfl
        rw [heq]
        refine ⟨rfl, rfl, ?_⟩
        show ("Importance must be a number between 0 and 1" : String) ≠ ""
        decide
      | true =>
        rcases h with h | h | h
        · rw [hb1] at h; cases h
        · rw [hb2] at h; cases h
        · rw [hb3] at h; cases h

/-- Witness for C10 at a concrete input: `memory_add` with importance 2
(out of range) fails with `ok = false` and leaves the store unchanged. -/
theorem memory_add_rejects_invalid_witness :
    (memory_add { content := .str "x", importance := .num 2 } none
        { rows := [], nextId := 1 } 0).1.ok = false ∧
    (memory_add { content := .str "x", importance := .num 2 } none
        { rows := [], nextId := 1 } 0).2 = { rows := [], nextId := 1 } ∧
    (memory_add { content := .str "x", importance := .num 2 } none
        { rows := [], nextId := 1 } 0).1.content ≠ "" :=
  memory_add_rejects_invalid { content := .str "x", importance := .num 2 }
    none { rows := [], nextId := 1 } 0
    (Or.inr (Or.inr (by with_unfolding_all decide)))

end Lynkr
